import Mathlib

/-!
Verification development for the exchange currency-pair sync manager
(`engine/sync_manager.go`).

This file gives a shallow embedding of the manager's data model and of the
operations the verified properties talk about: the registry (`get`, `add`,
`existsAgent`), fetch finalisation (`Update`), the worker's per-exchange
transport selection and per-stream sweep decision (demotion from websocket
to REST), the batched-ticker pacing protocol, configuration validation
(`setupSyncManager`) and the `Start` worker-spawn decision.

Modelling conventions:
* `int32` atomics (`started`, `initSyncStarted`, `initSyncCompleted`) are
  plain `Int` fields; the `sync.WaitGroup` barrier is an `Int` counter
  (`initSyncWGCount`), with `removedCounter`/`createdCounter` as in source.
* `time.Time` values are `Nat` timestamps, `0` playing the role of the Go
  zero time (`IsZero`); `time.Duration` values are `Int` (nanoseconds may
  be non-positive in a config, as the source's checks allow).
* `error` results become `Option`/`Except` over explicit error enums; a Go
  `nil` error is `none`/`.ok`.
* Types that live elsewhere in the repository (`currency.Pair`,
  `currency.Code`, `asset.Item`, the exchange capability interface, the
  struct layouts of `syncBase`/`currencyPairSyncAgent`/`syncManager`) are
  modelled from the spec, as recorded in their doc comments.
-/

namespace SyncV

/-- Modelled from the spec: `currency.Pair` of the external currency
package; the source's `Pair.Equal` comparison is embedded as structural
equality. -/
structure CurrencyPair where
  Base : String
  Quote : String
deriving DecidableEq, Repr

/-- Modelled from the spec: `asset.Item`, an asset-class identifier. -/
abbrev AssetItem := String

/-- Modelled from the spec: `currency.Code` plus its fiat-table membership
(`IsFiatCurrency`) as an abstract boolean. -/
structure Code where
  name : String
  fiat : Bool
deriving DecidableEq, Repr

/-- Modelled from the spec: `Code.IsEmpty`. -/
def Code.IsEmpty (c : Code) : Bool := c.name == ""

/-- Modelled from the spec: `Code.IsFiatCurrency`. -/
def Code.IsFiatCurrency (c : Code) : Bool := c.fiat

/-- Go `const ( SyncItemTicker = iota ... )`: ticker stream kind (0). -/
def SyncItemTicker : Int := 0

/-- Orderbook stream kind (1). -/
def SyncItemOrderbook : Int := 1

/-- Trade stream kind (2). -/
def SyncItemTrade : Int := 2

/-- Modelled from the spec (SyncBase, spec data model) and the source's
field usages: per-stream state within a sync unit. -/
structure syncBase where
  IsUsingREST : Bool := false
  IsUsingWebsocket : Bool := false
  IsProcessing : Bool := false
  HaveData : Bool := false
  LastUpdated : Nat := 0
  NumErrors : Nat := 0
deriving DecidableEq, Repr

/-- Modelled from the spec (CurrencyPairSyncAgent) and the source's field
usages: one sync unit, keyed by (Exchange, Pair, AssetType). -/
structure currencyPairSyncAgent where
  Exchange : String
  Pair : CurrencyPair
  AssetType : AssetItem
  Created : Nat := 0
  Ticker : syncBase := {}
  Orderbook : syncBase := {}
  Trade : syncBase := {}
deriving DecidableEq, Repr

/-- Modelled from the spec (SyncManagerConfig) and the source's field
usages. `PairFormatDisplay` is a nil-able pointer whose only relevant
property here is nil-ness. -/
structure SyncManagerConfig where
  SynchronizeTicker : Bool := false
  SynchronizeOrderbook : Bool := false
  SynchronizeTrades : Bool := false
  SynchronizeContinuously : Bool := false
  Verbose : Bool := false
  NumWorkers : Int := 0
  TimeoutREST : Int := 0
  TimeoutWebsocket : Int := 0
  FiatDisplayCurrency : Code := { name := "", fiat := false }
  PairFormatDisplay : Option Unit := none
deriving DecidableEq, Repr

/-- Modelled from the spec (registry state) and the source's field usages:
the manager state. The source's process-wide `createdCounter` and
`removedCounter` globals are scoped to the manager, and the
`initSyncWG` wait-group is its integer counter. -/
structure syncManager where
  started : Int := 0
  initSyncStarted : Int := 0
  initSyncCompleted : Int := 0
  config : SyncManagerConfig := {}
  currencyPairs : List currencyPairSyncAgent := []
  tickerBatchLastRequested : List (String × Nat) := []
  createdCounter : Nat := 0
  removedCounter : Nat := 0
  initSyncWGCount : Int := 0
deriving DecidableEq, Repr

/-- The error values returned by `get` and `Update` in the source
(`ErrSubSystemNotStarted`, `errUnknownSyncItem`, `errSyncPairNotFound`,
`errCouldNotSyncNewData`). -/
inductive SyncError
  | errSubSystemNotStarted
  | errUnknownSyncItem
  | errSyncPairNotFound
  | errCouldNotSyncNewData
deriving DecidableEq, Repr

deriving instance DecidableEq for Except

/-- The registry lookup condition used by `get`/`exists`/`isProcessing`/
`setProcessing`/`Update`: exchange name, pair equality and asset match. -/
def agentMatches (c : currencyPairSyncAgent) (ex : String) (p : CurrencyPair)
    (a : AssetItem) : Bool :=
  c.Exchange == ex && c.Pair == p && c.AssetType == a

/-- `syncManager.get`: first matching unit, else `errSyncPairNotFound`. -/
def syncManager.get (m : syncManager) (ex : String) (p : CurrencyPair)
    (a : AssetItem) : Except SyncError currencyPairSyncAgent :=
  match m.currencyPairs.find? (fun c => agentMatches c ex p a) with
  | some c => .ok c
  | none => .error .errSyncPairNotFound

/-- `syncManager.exists`: registry membership test. -/
def syncManager.existsAgent (m : syncManager) (ex : String) (p : CurrencyPair)
    (a : AssetItem) : Bool :=
  (m.currencyPairs.find? (fun c => agentMatches c ex p a)).isSome

/-- The per-stream effect of a successful `Update` match (source: sets
`LastUpdated = now`, increments `NumErrors` iff the error is non-nil,
forces `HaveData`, clears `IsProcessing`). -/
def syncBase.applyUpdate (sb : syncBase) (now : Nat) (errNonNil : Bool) : syncBase :=
  { sb with
    LastUpdated := now
    NumErrors := sb.NumErrors + (if errNonNil then 1 else 0)
    HaveData := true
    IsProcessing := false }

/-- `setProcessing`'s per-stream effect: only the in-flight flag changes. -/
def syncBase.setProcessing (sb : syncBase) (b : Bool) : syncBase :=
  { sb with IsProcessing := b }

/-- Project the stream of a unit addressed by a sync-item kind. -/
def streamOf (c : currencyPairSyncAgent) (k : Int) : syncBase :=
  if k == SyncItemTicker then c.Ticker
  else if k == SyncItemOrderbook then c.Orderbook
  else c.Trade

/-- Apply `Update`'s per-stream mutation to the addressed stream of a unit. -/
def agentApply (c : currencyPairSyncAgent) (k : Int) (errNonNil : Bool)
    (now : Nat) : currencyPairSyncAgent :=
  if k == SyncItemTicker then { c with Ticker := c.Ticker.applyUpdate now errNonNil }
  else if k == SyncItemOrderbook then { c with Orderbook := c.Orderbook.applyUpdate now errNonNil }
  else { c with Trade := c.Trade.applyUpdate now errNonNil }

/-- The sync-item kinds recognised by `Update`'s switch. -/
def knownKind (k : Int) : Bool :=
  k == SyncItemTicker || k == SyncItemOrderbook || k == SyncItemTrade

/-- The `Synchronize*` config flag guarding a stream kind. -/
def flagOf (cfg : SyncManagerConfig) (k : Int) : Bool :=
  if k == SyncItemTicker then cfg.SynchronizeTicker
  else if k == SyncItemOrderbook then cfg.SynchronizeOrderbook
  else cfg.SynchronizeTrades

/-- The registry scan inside `Update`: walk the unit list, and at the first
unit matching the key whose kind is handled by the inner switch, apply the
per-stream mutation; report whether the barrier is decremented
(`initSyncCompleted != 1 && !origHadData`). `none` means the scan fell off
the end (`errCouldNotSyncNewData`). -/
def updateFirst (ex : String) (p : CurrencyPair) (a : AssetItem) (k : Int)
    (errNonNil : Bool) (now : Nat) (initDone : Bool) :
    List currencyPairSyncAgent → Option (List currencyPairSyncAgent × Bool)
  | [] => none
  | c :: rest =>
    if agentMatches c ex p a && knownKind k then
      some (agentApply c k errNonNil now :: rest,
            !initDone && !(streamOf c k).HaveData)
    else
      match updateFirst ex p a k errNonNil now initDone rest with
      | none => none
      | some (rest', d) => some (c :: rest', d)

/-- `syncManager.Update`: fetch finalisation. Mirrors the source's check
order: started flag, `initSyncStarted` armed, kind switch with per-kind
`Synchronize*` no-ops and unknown-kind error, then the registry scan;
on a first-data match with the latch still open it increments
`removedCounter` and releases one barrier unit. -/
def syncManager.Update (m : syncManager) (ex : String) (p : CurrencyPair)
    (a : AssetItem) (k : Int) (errNonNil : Bool) (now : Nat) :
    syncManager × Option SyncError :=
  if m.started = 0 then (m, some .errSubSystemNotStarted)
  else if m.initSyncStarted ≠ 1 then (m, none)
  else if knownKind k = false then (m, some .errUnknownSyncItem)
  else if flagOf m.config k = false then (m, none)
  else
    match updateFirst ex p a k errNonNil now (m.initSyncCompleted == 1) m.currencyPairs with
    | none => (m, some .errCouldNotSyncNewData)
    | some (l', d) =>
      ({ m with
          currencyPairs := l'
          removedCounter := m.removedCounter + (if d then 1 else 0)
          initSyncWGCount := m.initSyncWGCount - (if d then 1 else 0) },
       none)

/-! ## External exchange model and the worker's transport selection -/

/-- Modelled from the spec: the websocket object returned by
`GetWebsocket`, exposing `IsConnected`. -/
structure WebsocketConn where
  connected : Bool
deriving DecidableEq, Repr

/-- Modelled from the spec: `Websocket.IsConnected`. -/
def WebsocketConn.IsConnected (w : WebsocketConn) : Bool := w.connected

/-- Modelled from the spec: the per-asset view of an exchange
(`IsAssetEnabled`, `IsAssetWebsocketSupported`, `GetEnabledPairs`);
`enabledPairs = none` is a `GetEnabledPairs` error. -/
structure AssetModel where
  item : AssetItem
  enabled : Bool
  wsSupported : Bool
  enabledPairs : Option (List CurrencyPair)
deriving DecidableEq, Repr

/-- Modelled from the spec: the exchange capability surface consumed by
the sync manager. `GetWebsocket` returns a websocket or an error; since
the interface is a sum, an error return carries no usable websocket, and
`getWebsocket = none` is the error case. -/
structure ExchangeModel where
  name : String
  supportsREST : Bool
  supportsWebsocket : Bool
  websocketEnabled : Bool
  supportsRESTTickerBatchUpdates : Bool
  getWebsocket : Option WebsocketConn
  assets : List AssetModel
deriving DecidableEq, Repr

/-- `Start`'s per-exchange transport defaults (`usingREST`,
`usingWebsocket`): websocket when the routine manager is enabled and the
exchange supports and enables websocket, else REST when supported, else
neither. -/
def startTransportSelect (wrme : Bool) (e : ExchangeModel) : Bool × Bool :=
  if wrme && e.supportsWebsocket && e.websocketEnabled then (false, true)
  else if e.supportsREST then (true, false)
  else (false, false)

/-- The worker's per-exchange sweep-default transport selection
(`usingREST`, `usingWebsocket`). In the source, when `GetWebsocket`
returns an error the worker logs it and sets `usingREST = true`, but then
unconditionally evaluates `ws.IsConnected()` on the websocket value
returned alongside the error; with the interface's error return carrying
no websocket, that is a nil-pointer dereference, modelled as `none`
(a worker panic). -/
def workerTransportSelect (e : ExchangeModel) : Option (Bool × Bool) :=
  if e.supportsWebsocket && e.websocketEnabled then
    match e.getWebsocket with
    | none => none
    | some ws => if ws.IsConnected then some (false, true) else some (true, false)
  else if e.supportsREST then some (true, false)
  else some (false, false)

/-- The `syncBase` literal built for a freshly created unit, identical in
`Start` and in the worker sweep:
`IsUsingREST = usingREST || !wsAssetSupported`,
`IsUsingWebsocket = usingWebsocket && wsAssetSupported`. -/
def mkSyncBase (usingREST usingWebsocket wsAssetSupported : Bool) : syncBase :=
  { IsUsingREST := usingREST || !wsAssetSupported
    IsUsingWebsocket := usingWebsocket && wsAssetSupported }

/-- The demotion mutation performed by the worker when a websocket stream
is stale past its grace period and the exchange supports REST:
`IsUsingWebsocket := false; IsUsingREST := true`. -/
def demoteToRest (sb : syncBase) : syncBase :=
  { sb with IsUsingWebsocket := false, IsUsingREST := true }

/-! ## The worker's per-stream sweep decision -/

/-- What the worker does for one stream of one unit in one sweep. -/
inductive SweepAction
  | skipProcessing
  | continuePair
  | restFetch
  | noFetch
  | backoff
deriving DecidableEq, Repr

/-- The staleness ("due") test shared by the orderbook and ticker
branches: `LastUpdated.IsZero() || (since > TimeoutREST && IsUsingREST) ||
(since > TimeoutWebsocket && IsUsingWebsocket)`. -/
def streamDue (cfg : SyncManagerConfig) (sb : syncBase) (now : Nat) : Prop :=
  sb.LastUpdated = 0
    ∨ (((now - sb.LastUpdated : Nat) : Int) > cfg.TimeoutREST ∧ sb.IsUsingREST = true)
    ∨ (((now - sb.LastUpdated : Nat) : Int) > cfg.TimeoutWebsocket ∧ sb.IsUsingWebsocket = true)

instance (cfg : SyncManagerConfig) (sb : syncBase) (now : Nat) :
    Decidable (streamDue cfg sb now) := by unfold streamDue; infer_instance

/-- The worker's orderbook branch for one unit: skip when in flight; when
due and on websocket, honour the creation grace period
(`continue` to the next pair) or demote when REST is supported; then
initiate the REST fetch with `IsProcessing` held (the orderbook branch
falls through to the fetch unconditionally); when not due, back off
50 ms. -/
def orderbookSweep (cfg : SyncManagerConfig) (sb : syncBase) (created now : Nat)
    (supportsREST : Bool) : SweepAction × syncBase :=
  if sb.IsProcessing = true then (.skipProcessing, sb)
  else if streamDue cfg sb now then
    if sb.IsUsingWebsocket = true then
      if ((now - created : Nat) : Int) < cfg.TimeoutWebsocket then (.continuePair, sb)
      else
        let sb1 := if supportsREST = true then demoteToRest sb else sb
        (.restFetch, sb1.setProcessing true)
    else (.restFetch, sb.setProcessing true)
  else (.backoff, sb)

/-- The worker's ticker branch for one unit: as for the orderbook, except
the REST fetch is guarded by `if IsUsingREST` after the demotion block, so
a websocket stream of a REST-less exchange takes no action. -/
def tickerSweep (cfg : SyncManagerConfig) (sb : syncBase) (created now : Nat)
    (supportsREST : Bool) : SweepAction × syncBase :=
  if sb.IsProcessing = true then (.skipProcessing, sb)
  else if streamDue cfg sb now then
    if sb.IsUsingWebsocket = true then
      if ((now - created : Nat) : Int) < cfg.TimeoutWebsocket then (.continuePair, sb)
      else
        let sb1 := if supportsREST = true then demoteToRest sb else sb
        if sb1.IsUsingREST = true then (.restFetch, sb1.setProcessing true)
        else (.noFetch, sb1)
    else if sb.IsUsingREST = true then (.restFetch, sb.setProcessing true)
    else (.noFetch, sb)
  else (.backoff, sb)

/-! ## Batched-ticker pacing

The source's batching section, for an exchange with REST ticker batch
support, is two critical sections: first, under the registry lock, read
`tickerBatchLastRequested[exchange]` (inserting the zero time when
absent); then, with the lock released, test
`batchLastDone.IsZero() || time.Since(batchLastDone) > TimeoutREST`; when
the test passes, re-acquire the lock, call `UpdateTickers` and store
`time.Now()`. The test is therefore evaluated against a possibly stale
read. The model keeps each lock-protected section atomic and lets a
schedule interleave the sections of different workers; the staleness test
is folded into the second section but still uses the value obtained by
the first, which is what creates the race. `calls` records the
`UpdateTickers` call timestamps in order. -/

/-- Pacing state for one exchange: the `tickerBatchLastRequested` entry,
each worker's pending read of it, and the `UpdateTickers` call log. -/
structure BatchSt where
  batchLast : Nat := 0
  pending : List (Nat × Nat) := []
  calls : List Nat := []
deriving DecidableEq, Repr

/-- One atomic (lock-protected) section of the batching code, tagged by
worker id and the clock value at which it runs. -/
inductive BatchEvent
  | readLast (wid : Nat) (t : Nat)
  | lockedBatch (wid : Nat) (t : Nat)
deriving DecidableEq, Repr

/-- The read a worker holds when it reaches its locked batch section. -/
def pendingLookup (l : List (Nat × Nat)) (wid : Nat) : Option Nat :=
  match l.find? (fun q => q.1 == wid) with
  | some q => some q.2
  | none => none

/-- The staleness test: `batchLastDone.IsZero() ||
time.Since(batchLastDone) > TimeoutREST`. -/
def batchDue (v t : Nat) (timeout : Nat) : Bool :=
  v == 0 || decide ((t - v : Nat) > timeout)

/-- Interpreter for one batching section. A `lockedBatch` with no pending
read is a no-op (the source always reads first); one whose stored read
fails the staleness test only serves the cached ticker (no
`UpdateTickers` call). -/
def batchStep (timeout : Nat) (s : BatchSt) : BatchEvent → BatchSt
  | .readLast wid _ =>
      { s with pending := (wid, s.batchLast) :: s.pending.filter (fun q => !(q.1 == wid)) }
  | .lockedBatch wid t =>
      match pendingLookup s.pending wid with
      | none => s
      | some v =>
          if batchDue v t timeout then
            { batchLast := t
              pending := s.pending.filter (fun q => !(q.1 == wid))
              calls := s.calls ++ [t] }
          else
            { s with pending := s.pending.filter (fun q => !(q.1 == wid)) }

/-- Run a schedule of batching sections from the initial state. -/
def batchRun (timeout : Nat) (evs : List BatchEvent) : BatchSt :=
  evs.foldl (batchStep timeout) {}

/-- Clock value of a batching event. -/
def eventTime : BatchEvent → Nat
  | .readLast _ t => t
  | .lockedBatch _ t => t

/-- A schedule is clock-consistent when event times never decrease. -/
def timesMonotone : List BatchEvent → Bool
  | [] => true
  | [_] => true
  | a :: b :: rest => decide (eventTime a ≤ eventTime b) && timesMonotone (b :: rest)

/-- One non-interleaved round of the batching section: a worker's read
immediately followed by its own locked section (read at `rc.1`, locked
section at `rc.2`). -/
def seqBatchRound (timeout : Nat) (s : BatchSt) (rc : Nat × Nat) : BatchSt :=
  batchStep timeout (batchStep timeout s (.readLast 0 rc.1)) (.lockedBatch 0 rc.2)

/-- A sequential (single-worker, or externally serialised) run of the
batching section. -/
def seqBatchRun (timeout : Nat) (rounds : List (Nat × Nat)) : BatchSt :=
  rounds.foldl (seqBatchRound timeout) {}

/-! ## Configuration validation (`setupSyncManager`) -/

/-- The error cases of `setupSyncManager`, in source order. -/
inductive SetupError
  | nilConfigPointer
  | noSyncItemsEnabled
  | nilExchangeManager
  | nilRemoteConfig
  | currencyCodeEmpty
  | fiatDisplayNotFiat
  | nilPairFormat
deriving DecidableEq, Repr

/-- `DefaultSyncerWorkers`. -/
def DefaultSyncerWorkers : Int := 15

/-- `DefaultSyncerTimeoutREST` (15 s in nanoseconds). -/
def DefaultSyncerTimeoutREST : Int := 15000000000

/-- `DefaultSyncerTimeoutWebsocket` (1 min in nanoseconds). -/
def DefaultSyncerTimeoutWebsocket : Int := 60000000000

/-- `setupSyncManager`'s `NumWorkers` defaulting. -/
def defaultNumWorkers (c : SyncManagerConfig) : SyncManagerConfig :=
  if c.NumWorkers ≤ 0 then { c with NumWorkers := DefaultSyncerWorkers } else c

/-- `setupSyncManager`'s `TimeoutREST` defaulting. -/
def defaultTimeoutREST (c : SyncManagerConfig) : SyncManagerConfig :=
  if c.TimeoutREST ≤ 0 then { c with TimeoutREST := DefaultSyncerTimeoutREST } else c

/-- `setupSyncManager`'s `TimeoutWebsocket` defaulting. -/
def defaultTimeoutWebsocket (c : SyncManagerConfig) : SyncManagerConfig :=
  if c.TimeoutWebsocket ≤ 0 then
    { c with TimeoutWebsocket := DefaultSyncerTimeoutWebsocket } else c

/-- The three defaulting steps of `setupSyncManager`, in source order. -/
def normalizeDefaults (c : SyncManagerConfig) : SyncManagerConfig :=
  defaultTimeoutWebsocket (defaultTimeoutREST (defaultNumWorkers c))

/-- The display-currency and pair-format checks at the tail of
`setupSyncManager`, run on the defaulted configuration. -/
def setupValidateDisplay (c0 : SyncManagerConfig) :
    Except SetupError SyncManagerConfig :=
  if (normalizeDefaults c0).FiatDisplayCurrency.IsEmpty then .error .currencyCodeEmpty
  else if !(normalizeDefaults c0).FiatDisplayCurrency.IsFiatCurrency then
    .error .fiatDisplayNotFiat
  else if (normalizeDefaults c0).PairFormatDisplay = none then .error .nilPairFormat
  else .ok (normalizeDefaults c0)

/-- `setupSyncManager`: configuration validation and defaulting, in the
source's check order; on success, the normalised configuration the
manager is built from. Nil-ness of the exchange manager and remote config
pointers is all the source consults of them. -/
def setupSyncManager (c : Option SyncManagerConfig)
    (exchangeManagerNil remoteConfigNil : Bool) :
    Except SetupError SyncManagerConfig :=
  match c with
  | none => .error .nilConfigPointer
  | some c =>
    if !c.SynchronizeOrderbook && !c.SynchronizeTicker && !c.SynchronizeTrades then
      .error .noSyncItemsEnabled
    else if exchangeManagerNil then .error .nilExchangeManager
    else if remoteConfigNil then .error .nilRemoteConfig
    else setupValidateDisplay c

/-! ## `add` and `Start` -/

/-- `syncManager.add`: append the unit with `Created` stamped `now`; for
each enabled stream, while the latch has not closed, arm one barrier unit
and count it in `createdCounter`. -/
def syncManager.add (m : syncManager) (c : currencyPairSyncAgent) (now : Nat) :
    syncManager :=
  let inc : Bool → Nat := fun flag => if flag && !(m.initSyncCompleted == 1) then 1 else 0
  let n := inc m.config.SynchronizeTicker + inc m.config.SynchronizeOrderbook
             + inc m.config.SynchronizeTrades
  { m with
    createdCounter := m.createdCounter + n
    initSyncWGCount := m.initSyncWGCount + n
    currencyPairs := m.currencyPairs ++ [{ c with Created := now }] }

/-- The unit literal built by `Start` and the worker for a new pair: each
enabled stream gets the shared `sBase`, disabled streams stay zero. -/
def mkAgent (cfg : SyncManagerConfig) (ex : String) (p : CurrencyPair)
    (a : AssetItem) (sBase : syncBase) : currencyPairSyncAgent :=
  { Exchange := ex
    Pair := p
    AssetType := a
    Ticker := if cfg.SynchronizeTicker then sBase else {}
    Orderbook := if cfg.SynchronizeOrderbook then sBase else {}
    Trade := if cfg.SynchronizeTrades then sBase else {} }

/-- `Start`'s per-pair step: skip pairs already present, otherwise build
the unit from the transport defaults and `add` it. -/
def startAddPair (exName : String) (aItem : AssetItem) (sBase : syncBase)
    (now : Nat) (m : syncManager) (p : CurrencyPair) : syncManager :=
  if m.existsAgent exName p aItem then m
  else m.add (mkAgent m.config exName p aItem sBase) now

/-- `Start`'s per-asset step: skip disabled assets and `GetEnabledPairs`
errors; fold the enabled pairs. -/
def startProcessAsset (exName : String) (rw : Bool × Bool) (now : Nat)
    (m : syncManager) (a : AssetModel) : syncManager :=
  if a.enabled = false then m
  else
    match a.enabledPairs with
    | none => m
    | some pairs =>
      pairs.foldl (startAddPair exName a.item (mkSyncBase rw.1 rw.2 a.wsSupported) now) m

/-- `Start`'s per-exchange enumeration: skip exchanges supporting neither
transport; otherwise fold the asset types with the exchange's transport
defaults. -/
def startProcessExchange (wrme : Bool) (m : syncManager) (e : ExchangeModel)
    (now : Nat) : syncManager :=
  if !e.supportsREST && !e.supportsWebsocket then m
  else e.assets.foldl (startProcessAsset e.name (startTransportSelect wrme e) now) m

/-- `Start`'s full registry enumeration over the exchange list. -/
def startRegistry (m : syncManager) (wrme : Bool) (exs : List ExchangeModel)
    (now : Nat) : syncManager :=
  exs.foldl (fun acc e => startProcessExchange wrme acc e now) m

/-- The `initSyncStarted` compare-and-swap in `Start`. -/
def armInitSync (m : syncManager) : syncManager :=
  if m.initSyncStarted = 0 then { m with initSyncStarted := 1 } else m

/-- The failure modes `Start` surfaces to its caller. -/
inductive StartError
  | alreadyStarted
  | getExchangesFailed
deriving DecidableEq, Repr

/-- `syncManager.Start`: compare-and-swap the started flag, hold one
barrier unit for the duration of start-up, enumerate exchanges into the
registry, arm `initSyncStarted`, then decide whether to spawn workers.
`exchanges = none` is a `GetExchanges` error. `completedAtSpawnCheck` is
the value the atomic load of `initSyncCompleted` observes at the spawn
check (it may have been set by the barrier-monitor goroutine). The middle
component of the result is the number of worker goroutines spawned; the
early return keeps `Start`'s barrier unit held, as the source does. -/
def syncManager.Start (m : syncManager) (wrme : Bool)
    (exchanges : Option (List ExchangeModel)) (now : Nat)
    (completedAtSpawnCheck : Bool) : syncManager × Nat × Option StartError :=
  if m.started ≠ 0 then (m, 0, some .alreadyStarted)
  else
    match exchanges with
    | none =>
      ({ m with started := 1, initSyncWGCount := m.initSyncWGCount + 1 }, 0,
       some .getExchangesFailed)
    | some exs =>
      let m3 := armInitSync (startRegistry
        { m with started := 1, initSyncWGCount := m.initSyncWGCount + 1 } wrme exs now)
      if completedAtSpawnCheck = true ∧ m3.config.SynchronizeContinuously = false then
        (m3, 0, none)
      else
        ({ m3 with initSyncWGCount := m3.initSyncWGCount - 1 },
         m3.config.NumWorkers.toNat, none)

/-! ## Registry lemmas -/

/-- `get` succeeds exactly on the first matching unit of the registry. -/
theorem get_ok_iff (m : syncManager) (ex : String) (p : CurrencyPair)
    (a : AssetItem) (c : currencyPairSyncAgent) :
    m.get ex p a = .ok c ↔
      m.currencyPairs.find? (fun d => agentMatches d ex p a) = some c := by
  unfold syncManager.get
  cases h : m.currencyPairs.find? (fun d => agentMatches d ex p a) <;> simp

/-- `get` reports `errSyncPairNotFound` exactly when no unit matches. -/
theorem get_notfound_iff (m : syncManager) (ex : String) (p : CurrencyPair)
    (a : AssetItem) :
    m.get ex p a = .error .errSyncPairNotFound ↔
      m.currencyPairs.find? (fun d => agentMatches d ex p a) = none := by
  unfold syncManager.get
  cases h : m.currencyPairs.find? (fun d => agentMatches d ex p a) <;> simp

/-- `Update`'s per-stream mutation does not touch the unit's identity. -/
theorem agentMatches_agentApply (c : currencyPairSyncAgent) (k : Int) (e : Bool)
    (n : Nat) (ex : String) (p : CurrencyPair) (a : AssetItem) :
    agentMatches (agentApply c k e n) ex p a = agentMatches c ex p a := by
  unfold agentApply
  split
  · rfl
  · split <;> rfl

/-- For a recognised kind, the mutated unit's addressed stream is the old
stream with `Update`'s per-stream effect applied. -/
theorem streamOf_agentApply (c : currencyPairSyncAgent) (k : Int) (e : Bool)
    (n : Nat) (hk : knownKind k = true) :
    streamOf (agentApply c k e n) k = (streamOf c k).applyUpdate n e := by
  unfold knownKind at hk
  simp only [Bool.or_eq_true, beq_iff_eq] at hk
  rcases hk with (h | h) | h <;> subst h <;> rfl

/-- When no unit matches the key, `Update`'s scan falls off the end. -/
theorem updateFirst_not_found (ex : String) (p : CurrencyPair) (a : AssetItem)
    (k : Int) (e : Bool) (n : Nat) (init : Bool) :
    ∀ l : List currencyPairSyncAgent,
      l.find? (fun d => agentMatches d ex p a) = none →
      updateFirst ex p a k e n init l = none := by
  intro l
  induction l with
  | nil => intro _; rfl
  | cons c₀ rest ih =>
    intro h
    cases hm : agentMatches c₀ ex p a with
    | true =>
      rw [@List.find?_cons_of_pos _ (fun d => agentMatches d ex p a) c₀ rest hm] at h
      simp at h
    | false =>
      have hc : ¬ agentMatches c₀ ex p a = true := by simp [hm]
      rw [@List.find?_cons_of_neg _ (fun d => agentMatches d ex p a) c₀ rest hc] at h
      simp [updateFirst, hm, ih h]

/-- When a unit matches the key and the kind is recognised, `Update`'s
scan mutates exactly the first matching unit, reports first-data status
from that unit's addressed stream, and every unit of the result is either
untouched or that one mutation of its old value. -/
theorem updateFirst_found (ex : String) (p : CurrencyPair) (a : AssetItem)
    (k : Int) (e : Bool) (n : Nat) (init : Bool) (hk : knownKind k = true) :
    ∀ (l : List currencyPairSyncAgent) (c : currencyPairSyncAgent),
      l.find? (fun d => agentMatches d ex p a) = some c →
      ∃ l', updateFirst ex p a k e n init l =
              some (l', !init && !(streamOf c k).HaveData) ∧
        l'.find? (fun d => agentMatches d ex p a) = some (agentApply c k e n) ∧
        List.Forall₂ (fun o o' => o' = o ∨ o' = agentApply o k e n) l l' := by
  intro l
  induction l with
  | nil => intro c h; simp at h
  | cons c₀ rest ih =>
    intro c h
    cases hm : agentMatches c₀ ex p a with
    | true =>
      rw [@List.find?_cons_of_pos _ (fun d => agentMatches d ex p a) c₀ rest hm] at h
      simp only [Option.some.injEq] at h
      subst h
      refine ⟨agentApply c₀ k e n :: rest, ?_, ?_, ?_⟩
      · simp [updateFirst, hm, hk]
      · have hpos : agentMatches (agentApply c₀ k e n) ex p a = true := by
          rw [agentMatches_agentApply]; exact hm
        rw [@List.find?_cons_of_pos _ (fun d => agentMatches d ex p a)
              (agentApply c₀ k e n) rest hpos]
      · exact List.Forall₂.cons (Or.inr rfl)
          (List.forall₂_same.2 (fun x _ => Or.inl rfl))
    | false =>
      have hc : ¬ agentMatches c₀ ex p a = true := by simp [hm]
      rw [@List.find?_cons_of_neg _ (fun d => agentMatches d ex p a) c₀ rest hc] at h
      obtain ⟨l'', h1, h2, h3⟩ := ih c h
      refine ⟨c₀ :: l'', ?_, ?_, ?_⟩
      · simp [updateFirst, hm, h1]
      · rw [@List.find?_cons_of_neg _ (fun d => agentMatches d ex p a) c₀ l'' hc]
        exact h2
      · exact List.Forall₂.cons (Or.inl rfl) h3

/-- Whatever `Update`'s scan does, each unit of the result is its old
value or its old value with the one per-stream mutation applied. -/
theorem updateFirst_forall₂ (ex : String) (p : CurrencyPair) (a : AssetItem)
    (k : Int) (e : Bool) (n : Nat) (init : Bool) :
    ∀ (l l' : List currencyPairSyncAgent) (d : Bool),
      updateFirst ex p a k e n init l = some (l', d) →
      List.Forall₂ (fun o o' => o' = o ∨ o' = agentApply o k e n) l l' := by
  intro l
  induction l with
  | nil => intro l' d h; simp [updateFirst] at h
  | cons c₀ rest ih =>
    intro l' d h
    unfold updateFirst at h
    by_cases hg : (agentMatches c₀ ex p a && knownKind k) = true
    · rw [if_pos hg] at h
      simp only [Option.some.injEq, Prod.mk.injEq] at h
      obtain ⟨h1, -⟩ := h
      subst h1
      exact List.Forall₂.cons (Or.inr rfl)
        (List.forall₂_same.2 (fun x _ => Or.inl rfl))
    · rw [if_neg hg] at h
      cases hr : updateFirst ex p a k e n init rest with
      | none => rw [hr] at h; simp at h
      | some q =>
        obtain ⟨qs, qd⟩ := q
        rw [hr] at h
        simp only [Option.some.injEq, Prod.mk.injEq] at h
        obtain ⟨h1, -⟩ := h
        subst h1
        exact List.Forall₂.cons (Or.inl rfl) (ih qs qd hr)

/-- Pointwise `HaveData` monotonicity between an old and a new unit. -/
def agentHaveDataLE (o o' : currencyPairSyncAgent) : Prop :=
  (o.Ticker.HaveData = true → o'.Ticker.HaveData = true) ∧
  (o.Orderbook.HaveData = true → o'.Orderbook.HaveData = true) ∧
  (o.Trade.HaveData = true → o'.Trade.HaveData = true)

/-- `HaveData` monotonicity is reflexive. -/
theorem agentHaveDataLE_refl (c : currencyPairSyncAgent) : agentHaveDataLE c c :=
  ⟨id, id, id⟩

/-- `Update`'s per-stream mutation never lowers any `HaveData` flag: it
forces the addressed stream's flag to true and copies the others. -/
theorem agentHaveDataLE_agentApply (o : currencyPairSyncAgent) (k : Int)
    (e : Bool) (n : Nat) : agentHaveDataLE o (agentApply o k e n) := by
  unfold agentApply
  split
  · exact ⟨fun _ => rfl, id, id⟩
  · split
    · exact ⟨id, fun _ => rfl, id⟩
    · exact ⟨id, id, fun _ => rfl⟩

/-- The success path of `Update`: with the manager started, the barrier
armed, a recognised and enabled kind, and a matching unit, `Update`
returns nil, mutates exactly the first match, and adjusts
`removedCounter` and the barrier by the first-data flag computed from the
matched unit's addressed stream. -/
theorem Update_success (m : syncManager) (ex : String) (p : CurrencyPair)
    (a : AssetItem) (k : Int) (e : Bool) (now : Nat) (c : currencyPairSyncAgent)
    (hst : m.started = 1) (harm : m.initSyncStarted = 1)
    (hk : knownKind k = true) (hflag : flagOf m.config k = true)
    (hget : m.get ex p a = .ok c) :
    ∃ l',
      (m.Update ex p a k e now).2 = none ∧
      (m.Update ex p a k e now).1 =
        { m with
            currencyPairs := l'
            removedCounter := m.removedCounter +
              (if !(m.initSyncCompleted == 1) && !(streamOf c k).HaveData then 1 else 0)
            initSyncWGCount := m.initSyncWGCount -
              (if !(m.initSyncCompleted == 1) && !(streamOf c k).HaveData then 1 else 0) } ∧
      l'.find? (fun d => agentMatches d ex p a) = some (agentApply c k e now) ∧
      List.Forall₂ (fun o o' => o' = o ∨ o' = agentApply o k e now) m.currencyPairs l' := by
  have hfind := (get_ok_iff m ex p a c).1 hget
  obtain ⟨l', h1, h2, h3⟩ :=
    updateFirst_found ex p a k e now (m.initSyncCompleted == 1) hk m.currencyPairs c hfind
  refine ⟨l', ?_, ?_, h2, h3⟩
  · unfold syncManager.Update
    rw [if_neg (by rw [hst]; decide), if_neg (by rw [harm]; simp),
        if_neg (by rw [hk]; simp), if_neg (by rw [hflag]; simp), h1]
  · unfold syncManager.Update
    rw [if_neg (by rw [hst]; decide), if_neg (by rw [harm]; simp),
        if_neg (by rw [hk]; simp), if_neg (by rw [hflag]; simp), h1]

/-- Any run of `Update` either leaves the unit list untouched or replaces
it with a scan result. -/
theorem Update_currencyPairs_cases (m : syncManager) (ex : String)
    (p : CurrencyPair) (a : AssetItem) (k : Int) (e : Bool) (now : Nat) :
    (m.Update ex p a k e now).1.currencyPairs = m.currencyPairs ∨
    ∃ d, updateFirst ex p a k e now (m.initSyncCompleted == 1) m.currencyPairs =
           some ((m.Update ex p a k e now).1.currencyPairs, d) := by
  unfold syncManager.Update
  split
  · exact Or.inl rfl
  · split
    · exact Or.inl rfl
    · split
      · exact Or.inl rfl
      · split
        · exact Or.inl rfl
        · split
          · exact Or.inl rfl
          · rename_i l' d heq
            exact Or.inr ⟨d, by rw [heq]⟩

/-- `Update` never touches `createdCounter`, on any input and in any
branch. -/
theorem Update_createdCounter (m : syncManager) (ex : String) (p : CurrencyPair)
    (a : AssetItem) (k : Int) (e : Bool) (now : Nat) :
    (m.Update ex p a k e now).1.createdCounter = m.createdCounter := by
  unfold syncManager.Update
  repeat' split
  all_goals rfl

/-- With the latch observed closed (`initDone = true`), `Update`'s scan
never reports a barrier decrement. -/
theorem updateFirst_initDone_false (ex : String) (p : CurrencyPair)
    (a : AssetItem) (k : Int) (e : Bool) (n : Nat) :
    ∀ (l l' : List currencyPairSyncAgent) (d : Bool),
      updateFirst ex p a k e n true l = some (l', d) → d = false := by
  intro l
  induction l with
  | nil => intro l' d h; simp [updateFirst] at h
  | cons c₀ rest ih =>
    intro l' d h
    unfold updateFirst at h
    by_cases hg : (agentMatches c₀ ex p a && knownKind k) = true
    · rw [if_pos hg] at h
      simp only [Option.some.injEq, Prod.mk.injEq] at h
      obtain ⟨-, h2⟩ := h
      simp at h2
      exact h2
    · rw [if_neg hg] at h
      cases hr : updateFirst ex p a k e n true rest with
      | none => rw [hr] at h; simp at h
      | some q =>
        obtain ⟨qs, qd⟩ := q
        rw [hr] at h
        simp only [Option.some.injEq, Prod.mk.injEq] at h
        obtain ⟨-, h2⟩ := h
        subst h2
        exact ih qs qd hr

/-- Any run of `Update` either leaves `removedCounter` and the barrier
count untouched, or adjusts both by the decrement flag reported by the
scan. -/
theorem Update_counters_cases (m : syncManager) (ex : String) (p : CurrencyPair)
    (a : AssetItem) (k : Int) (e : Bool) (now : Nat) :
    ((m.Update ex p a k e now).1.removedCounter = m.removedCounter ∧
     (m.Update ex p a k e now).1.initSyncWGCount = m.initSyncWGCount) ∨
    ∃ l' d, updateFirst ex p a k e now (m.initSyncCompleted == 1) m.currencyPairs
        = some (l', d) ∧
      (m.Update ex p a k e now).1.removedCounter
        = m.removedCounter + (if d then 1 else 0) ∧
      (m.Update ex p a k e now).1.initSyncWGCount
        = m.initSyncWGCount - (if d then 1 else 0) := by
  unfold syncManager.Update
  split
  · exact Or.inl ⟨rfl, rfl⟩
  · split
    · exact Or.inl ⟨rfl, rfl⟩
    · split
      · exact Or.inl ⟨rfl, rfl⟩
      · split
        · exact Or.inl ⟨rfl, rfl⟩
        · split
          · exact Or.inl ⟨rfl, rfl⟩
          · rename_i l' d heq
            exact Or.inr ⟨l', d, heq, rfl, rfl⟩

/-! ## Concrete states used by witnesses and counterexamples -/

/-- A concrete pair. -/
def pBTC : CurrencyPair := { Base := "BTC", Quote := "USD" }

/-- A registered unit with no data yet. -/
def sampleAgent : currencyPairSyncAgent :=
  { Exchange := "X", Pair := pBTC, AssetType := "spot" }

/-- A configuration with all three streams enabled. -/
def cfgAll : SyncManagerConfig :=
  { SynchronizeTicker := true, SynchronizeOrderbook := true, SynchronizeTrades := true,
    NumWorkers := 2, TimeoutREST := 10, TimeoutWebsocket := 50,
    FiatDisplayCurrency := { name := "USD", fiat := true },
    PairFormatDisplay := some () }

/-- A started manager whose initial-sync barrier is not yet armed — the
state `Start` is in while enumerating exchanges, before the
`initSyncStarted` compare-and-swap. -/
def mUnarmed : syncManager :=
  { started := 1, initSyncStarted := 0, config := cfgAll, currencyPairs := [sampleAgent] }

/-- A started manager with the barrier armed and one registered unit. -/
def mArmed : syncManager :=
  { started := 1, initSyncStarted := 1, config := cfgAll, currencyPairs := [sampleAgent] }

/-- A started, armed manager whose initial-sync latch has already closed
but which holds a unit with no data yet — the state produced by the
worker's lazy `add` of a newly enabled pair after initial sync. -/
def mLate : syncManager :=
  { started := 1, initSyncStarted := 1, initSyncCompleted := 1, config := cfgAll,
    currencyPairs := [sampleAgent] }

/-! ## C1 -/

/-- C1 counterexample: with the manager started but the barrier not yet
armed (`initSyncStarted = 0`), `Update` on a registered unit with an
enabled stream kind returns nil as a no-op, so the subsequent `get` still
observes `HaveData = false` and the zero `LastUpdated` — refuting the
claim as stated. The state is reachable: `Start` sets `started` at its
top and arms `initSyncStarted` only after enumerating all exchanges. -/
theorem C1_counterexample :
    (mUnarmed.Update "X" pBTC "spot" SyncItemTicker false 5).2 = none ∧
    (mUnarmed.Update "X" pBTC "spot" SyncItemTicker false 5).1.get "X" pBTC "spot"
      = .ok sampleAgent ∧
    sampleAgent.Ticker.HaveData = false ∧
    sampleAgent.Ticker.LastUpdated = 0 := by decide

/-- C1 (amended: additionally requires the initial-sync barrier to be
armed, `initSyncStarted = 1`): for every registered unit and enabled
stream kind, a successful `Update` returns nil and a subsequent `get`
observes `HaveData = true`, `IsProcessing = false`, `LastUpdated` at or
after the pre-call time, and `NumErrors` equal to its pre-value plus one
exactly when the reported error is non-nil. -/
theorem C1_update_get_roundtrip (m : syncManager) (ex : String) (p : CurrencyPair)
    (a : AssetItem) (k : Int) (e : Bool) (now pre : Nat) (c : currencyPairSyncAgent)
    (hst : m.started = 1) (harm : m.initSyncStarted = 1)
    (hk : knownKind k = true) (hflag : flagOf m.config k = true)
    (hget : m.get ex p a = .ok c) (hpre : pre ≤ now) :
    (m.Update ex p a k e now).2 = none ∧
    ∃ c', (m.Update ex p a k e now).1.get ex p a = .ok c' ∧
      (streamOf c' k).HaveData = true ∧
      (streamOf c' k).IsProcessing = false ∧
      pre ≤ (streamOf c' k).LastUpdated ∧
      (streamOf c' k).NumErrors = (streamOf c k).NumErrors + (if e then 1 else 0) := by
  obtain ⟨l', hnone, hm', hfind, -⟩ := Update_success m ex p a k e now c hst harm hk hflag hget
  refine ⟨hnone, agentApply c k e now, ?_, ?_, ?_, ?_, ?_⟩
  · rw [get_ok_iff, hm']
    exact hfind
  · rw [streamOf_agentApply c k e now hk]
    rfl
  · rw [streamOf_agentApply c k e now hk]
    rfl
  · rw [streamOf_agentApply c k e now hk]
    exact hpre
  · rw [streamOf_agentApply c k e now hk]
    rfl

/-- Witness for C1 (amended): the round-trip at a concrete armed manager,
ticker kind, non-nil error, call time 7, pre-call time 3. -/
theorem C1_update_get_roundtrip_witness :
    (mArmed.Update "X" pBTC "spot" SyncItemTicker true 7).2 = none ∧
    ∃ c', (mArmed.Update "X" pBTC "spot" SyncItemTicker true 7).1.get "X" pBTC "spot"
        = .ok c' ∧
      (streamOf c' SyncItemTicker).HaveData = true ∧
      (streamOf c' SyncItemTicker).IsProcessing = false ∧
      3 ≤ (streamOf c' SyncItemTicker).LastUpdated ∧
      (streamOf c' SyncItemTicker).NumErrors =
        (streamOf sampleAgent SyncItemTicker).NumErrors + (if true then 1 else 0) :=
  C1_update_get_roundtrip mArmed "X" pBTC "spot" SyncItemTicker true 7 3 sampleAgent
    rfl rfl (by decide) (by decide) (by decide) (by decide)

/-! ## C2 -/

/-- C2 counterexample: a reachable state (unit added lazily by a worker
after the latch closed) in which the first `Update` with pre-state
`HaveData = false` does not decrement the barrier: `removedCounter` and
the wait-group count are unchanged, refuting "decremented exactly once,
on the first Update whose pre-state has HaveData=false" as stated. -/
theorem C2_counterexample :
    sampleAgent.Ticker.HaveData = false ∧
    (mLate.Update "X" pBTC "spot" SyncItemTicker false 5).2 = none ∧
    (mLate.Update "X" pBTC "spot" SyncItemTicker false 5).1.removedCounter
      = mLate.removedCounter ∧
    (mLate.Update "X" pBTC "spot" SyncItemTicker false 5).1.initSyncWGCount
      = mLate.initSyncWGCount := by decide

/-- C2 (amended: the decrement clause holds while the initial-sync latch
is still open, `initSyncCompleted ≠ 1`): (1) an `Update` whose matched
stream has `HaveData = false` with the latch open decrements the barrier
and increments `removedCounter` exactly once; (2) any later `Update` on
that stream (`HaveData = true`) leaves `removedCounter` and the barrier
unchanged; (3) once the latch has closed, `Update` never touches
`removedCounter` or the barrier, on any input and in any branch;
(4) `Update` never changes `createdCounter`; (5) `HaveData` never
transitions from true back to false on any unit or stream. -/
theorem C2_barrier_once_amended :
    (∀ (m : syncManager) ex p a k e now c,
      m.started = 1 → m.initSyncStarted = 1 → knownKind k = true →
      flagOf m.config k = true → m.get ex p a = .ok c →
      m.initSyncCompleted ≠ 1 → (streamOf c k).HaveData = false →
      (m.Update ex p a k e now).1.removedCounter = m.removedCounter + 1 ∧
      (m.Update ex p a k e now).1.initSyncWGCount = m.initSyncWGCount - 1 ∧
      (m.Update ex p a k e now).1.createdCounter = m.createdCounter)
  ∧ (∀ (m : syncManager) ex p a k e now c,
      m.started = 1 → m.initSyncStarted = 1 → knownKind k = true →
      flagOf m.config k = true → m.get ex p a = .ok c →
      (streamOf c k).HaveData = true →
      (m.Update ex p a k e now).1.removedCounter = m.removedCounter ∧
      (m.Update ex p a k e now).1.initSyncWGCount = m.initSyncWGCount ∧
      (m.Update ex p a k e now).1.createdCounter = m.createdCounter)
  ∧ (∀ (m : syncManager) ex p a k e now, m.initSyncCompleted = 1 →
      (m.Update ex p a k e now).1.removedCounter = m.removedCounter ∧
      (m.Update ex p a k e now).1.initSyncWGCount = m.initSyncWGCount)
  ∧ (∀ (m : syncManager) ex p a k e now,
      (m.Update ex p a k e now).1.createdCounter = m.createdCounter)
  ∧ (∀ (m : syncManager) ex p a k e now,
      List.Forall₂ agentHaveDataLE m.currencyPairs
        (m.Update ex p a k e now).1.currencyPairs) := by
  refine ⟨?_, ?_, ?_, ?_, ?_⟩
  · intro m ex p a k e now c hst harm hk hflag hget hdone hhave
    obtain ⟨l', -, hm', -, -⟩ := Update_success m ex p a k e now c hst harm hk hflag hget
    have hb : (m.initSyncCompleted == 1) = false := by simp [hdone]
    rw [hm']
    refine ⟨?_, ?_, rfl⟩ <;> simp [hb, hhave]
  · intro m ex p a k e now c hst harm hk hflag hget hhave
    obtain ⟨l', -, hm', -, -⟩ := Update_success m ex p a k e now c hst harm hk hflag hget
    rw [hm']
    refine ⟨?_, ?_, rfl⟩ <;> simp [hhave]
  · intro m ex p a k e now hdone
    have hb : (m.initSyncCompleted == 1) = true := by simp [hdone]
    rcases Update_counters_cases m ex p a k e now with h | ⟨l', d, hf, h1, h2⟩
    · exact h
    · rw [hb] at hf
      have hd : d = false :=
        updateFirst_initDone_false ex p a k e now m.currencyPairs l' d hf
      subst hd
      simp only [Bool.false_eq_true, if_false, Nat.add_zero, Int.sub_zero] at h1 h2
      exact ⟨h1, h2⟩
  · intro m ex p a k e now
    exact Update_createdCounter m ex p a k e now
  · intro m ex p a k e now
    rcases Update_currencyPairs_cases m ex p a k e now with h | ⟨d, h⟩
    · rw [h]
      exact List.forall₂_same.2 fun x _ => agentHaveDataLE_refl x
    · have h2 := updateFirst_forall₂ ex p a k e now (m.initSyncCompleted == 1)
        m.currencyPairs ((m.Update ex p a k e now).1.currencyPairs) d h
      refine h2.imp ?_
      rintro o o' (rfl | rfl)
      · exact agentHaveDataLE_refl _
      · exact agentHaveDataLE_agentApply _ k e now

/-- Witness for C2 (amended): at a concrete armed manager with the latch
open, the first orderbook `Update` decrements the barrier once and leaves
`createdCounter` alone. -/
theorem C2_barrier_once_witness :
    (mArmed.Update "X" pBTC "spot" SyncItemOrderbook false 9).1.removedCounter
      = mArmed.removedCounter + 1 ∧
    (mArmed.Update "X" pBTC "spot" SyncItemOrderbook false 9).1.initSyncWGCount
      = mArmed.initSyncWGCount - 1 ∧
    (mArmed.Update "X" pBTC "spot" SyncItemOrderbook false 9).1.createdCounter
      = mArmed.createdCounter :=
  C2_barrier_once_amended.1 mArmed "X" pBTC "spot" SyncItemOrderbook false 9 sampleAgent
    rfl rfl (by decide) (by decide) (by decide) (by decide) (by decide)

/-! ## C3 -/

/-- C3: for a started manager with the barrier armed, `Update` errs in
exactly two cases — an unrecognised stream kind (`errUnknownSyncItem`)
and, for a recognised enabled kind, an unregistered key
(`errCouldNotSyncNewData`); with the barrier not armed, or with the
kind's `Synchronize*` flag false, it returns nil and changes nothing; on
a recognised enabled kind with a registered key it returns nil; and `get`
on an unknown key fails with `errSyncPairNotFound`. -/
theorem C3_update_error_cases :
    (∀ (m : syncManager) ex p a k e now, m.started = 1 → m.initSyncStarted = 1 →
      knownKind k = false →
      m.Update ex p a k e now = (m, some .errUnknownSyncItem))
  ∧ (∀ (m : syncManager) ex p a k e now, m.started = 1 → m.initSyncStarted = 1 →
      knownKind k = true → flagOf m.config k = true →
      m.get ex p a = .error .errSyncPairNotFound →
      m.Update ex p a k e now = (m, some .errCouldNotSyncNewData))
  ∧ (∀ (m : syncManager) ex p a k e now, m.started = 1 → m.initSyncStarted ≠ 1 →
      m.Update ex p a k e now = (m, none))
  ∧ (∀ (m : syncManager) ex p a k e now, m.started = 1 → m.initSyncStarted = 1 →
      knownKind k = true → flagOf m.config k = false →
      m.Update ex p a k e now = (m, none))
  ∧ (∀ (m : syncManager) ex p a k e now c, m.started = 1 → m.initSyncStarted = 1 →
      knownKind k = true → flagOf m.config k = true → m.get ex p a = .ok c →
      (m.Update ex p a k e now).2 = none)
  ∧ (∀ (m : syncManager) ex p a,
      m.currencyPairs.find? (fun d => agentMatches d ex p a) = none →
      m.get ex p a = .error .errSyncPairNotFound) := by
  refine ⟨?_, ?_, ?_, ?_, ?_, ?_⟩
  · intro m ex p a k e now hst harm hk
    unfold syncManager.Update
    rw [if_neg (by rw [hst]; decide), if_neg (by rw [harm]; simp), if_pos hk]
  · intro m ex p a k e now hst harm hk hflag hnf
    have hnone := (get_notfound_iff m ex p a).1 hnf
    unfold syncManager.Update
    rw [if_neg (by rw [hst]; decide), if_neg (by rw [harm]; simp),
        if_neg (by rw [hk]; simp), if_neg (by rw [hflag]; simp),
        updateFirst_not_found ex p a k e now _ m.currencyPairs hnone]
  · intro m ex p a k e now hst hnarm
    unfold syncManager.Update
    rw [if_neg (by rw [hst]; decide), if_pos hnarm]
  · intro m ex p a k e now hst harm hk hflag
    unfold syncManager.Update
    rw [if_neg (by rw [hst]; decide), if_neg (by rw [harm]; simp),
        if_neg (by rw [hk]; simp), if_pos hflag]
  · intro m ex p a k e now c hst harm hk hflag hget
    obtain ⟨l', hnone, -, -, -⟩ := Update_success m ex p a k e now c hst harm hk hflag hget
    exact hnone
  · intro m ex p a hn
    exact (get_notfound_iff m ex p a).2 hn

/-- Witness for C3: the unknown-kind error at kind 9, the unknown-key
error at exchange Y, and the unarmed no-op, all at concrete managers. -/
theorem C3_update_error_cases_witness :
    mArmed.Update "X" pBTC "spot" 9 false 4 = (mArmed, some .errUnknownSyncItem) ∧
    mArmed.Update "Y" pBTC "spot" SyncItemTicker false 4
      = (mArmed, some .errCouldNotSyncNewData) ∧
    mUnarmed.Update "X" pBTC "spot" SyncItemTicker false 4 = (mUnarmed, none) :=
  ⟨C3_update_error_cases.1 mArmed "X" pBTC "spot" 9 false 4 rfl rfl (by decide),
   C3_update_error_cases.2.1 mArmed "Y" pBTC "spot" SyncItemTicker false 4 rfl rfl
     (by decide) (by decide) (by decide),
   C3_update_error_cases.2.2.1 mUnarmed "X" pBTC "spot" SyncItemTicker false 4 rfl
     (by decide)⟩

/-! ## C10 -/

/-- C10: when the manager has not been started (`started = 0`), `Update`
returns the not-started error before any other check, for every input —
any key, any stream kind, any error — and leaves the whole manager state
(registry, counters, barrier) unchanged. -/
theorem C10_not_started_precedence (m : syncManager) (ex : String)
    (p : CurrencyPair) (a : AssetItem) (k : Int) (e : Bool) (now : Nat)
    (h : m.started = 0) :
    m.Update ex p a k e now = (m, some .errSubSystemNotStarted) := by
  unfold syncManager.Update
  rw [if_pos h]

/-- Witness for C10: a stopped manager with a registered unit, called
with an unknown kind and a foreign key, still reports not-started and is
untouched. -/
theorem C10_not_started_precedence_witness :
    ({ config := cfgAll, currencyPairs := [sampleAgent] } : syncManager).Update
        "nope" pBTC "margin" 99 true 3
      = ({ config := cfgAll, currencyPairs := [sampleAgent] },
         some .errSubSystemNotStarted) :=
  C10_not_started_precedence _ "nope" pBTC "margin" 99 true 3 rfl

/-! ## C4 -/

/-- An exchange with websocket support and enabled whose `GetWebsocket`
call fails. -/
def exchangeWsErr : ExchangeModel :=
  { name := "E", supportsREST := true, supportsWebsocket := true,
    websocketEnabled := true, supportsRESTTickerBatchUpdates := false,
    getWebsocket := none, assets := [] }

/-- An exchange with a connected websocket. -/
def exchangeWsOk : ExchangeModel :=
  { name := "W", supportsREST := true, supportsWebsocket := true,
    websocketEnabled := true, supportsRESTTickerBatchUpdates := false,
    getWebsocket := some { connected := true }, assets := [] }


/-- Transport exclusivity for one stream: `IsUsingREST` and
`IsUsingWebsocket` are not both true. -/
def NoBothTransports (sb : syncBase) : Prop :=
  ¬(sb.IsUsingREST = true ∧ sb.IsUsingWebsocket = true)

/-- `Start`'s transport defaults take one of three values, never
(true, true). -/
theorem startTransportSelect_cases (wrme : Bool) (e : ExchangeModel) :
    startTransportSelect wrme e = (false, true) ∨
    startTransportSelect wrme e = (true, false) ∨
    startTransportSelect wrme e = (false, false) := by
  unfold startTransportSelect
  split
  · exact Or.inl rfl
  · split
    · exact Or.inr (Or.inl rfl)
    · exact Or.inr (Or.inr rfl)

/-- The worker's transport defaults are the panic marker or one of three
values, never (true, true). -/
theorem workerTransportSelect_cases (e : ExchangeModel) :
    workerTransportSelect e = none ∨
    workerTransportSelect e = some (false, true) ∨
    workerTransportSelect e = some (true, false) ∨
    workerTransportSelect e = some (false, false) := by
  unfold workerTransportSelect
  split
  · cases hgw : e.getWebsocket with
    | none => exact Or.inl rfl
    | some ws => cases hws : ws.IsConnected <;> simp [hws]
  · split
    · exact Or.inr (Or.inr (Or.inl rfl))
    · exact Or.inr (Or.inr (Or.inr rfl))

/-- C4: `IsUsingREST` and `IsUsingWebsocket` are never both true: the
initial per-stream assignment built from `Start`'s transport defaults and
from the worker sweep's transport defaults satisfies the exclusion, the
demotion transition re-establishes it, and the two remaining per-stream
mutations (`Update`'s finalisation and `setProcessing`) preserve it — so
it holds of every stream in every reachable registry state. -/
theorem C4_transport_exclusive :
    (∀ (wrme : Bool) (e : ExchangeModel) (wsAS : Bool),
      NoBothTransports
        (mkSyncBase (startTransportSelect wrme e).1 (startTransportSelect wrme e).2 wsAS))
  ∧ (∀ (e : ExchangeModel) (r w wsAS : Bool),
      workerTransportSelect e = some (r, w) → NoBothTransports (mkSyncBase r w wsAS))
  ∧ (∀ sb : syncBase, NoBothTransports (demoteToRest sb))
  ∧ (∀ (sb : syncBase) (now : Nat) (e : Bool),
      NoBothTransports sb → NoBothTransports (sb.applyUpdate now e))
  ∧ (∀ (sb : syncBase) (b : Bool),
      NoBothTransports sb → NoBothTransports (sb.setProcessing b)) := by
  refine ⟨?_, ?_, ?_, ?_, ?_⟩
  · intro wrme e wsAS
    rcases startTransportSelect_cases wrme e with hc | hc | hc <;>
      rw [hc] <;> cases wsAS <;> simp [NoBothTransports, mkSyncBase]
  · intro e r w wsAS h
    rcases workerTransportSelect_cases e with hc | hc | hc | hc <;> rw [hc] at h
    · cases h
    all_goals
      simp only [Option.some.injEq, Prod.mk.injEq] at h
      obtain ⟨h1, h2⟩ := h
      subst h1
      subst h2
      cases wsAS <;> simp [NoBothTransports, mkSyncBase]
  · intro sb
    simp [NoBothTransports, demoteToRest]
  · intro sb now e h
    exact h
  · intro sb b h
    exact h

/-- Witness for C4: the worker's selection at a connected-websocket
exchange yields (REST=false, websocket=true), and the stream built from
it is exclusive. -/
theorem C4_transport_exclusive_witness :
    workerTransportSelect exchangeWsOk = some (false, true) ∧
    NoBothTransports (mkSyncBase false true true) :=
  ⟨by decide, C4_transport_exclusive.2.1 exchangeWsOk false true true (by decide)⟩

/-! ## C5 -/

/-- C5: when a worker examines an orderbook or ticker stream that is on
websocket, not processing, past the creation grace period
(`now − Created ≥ TimeoutWebsocket`), stale (`now − LastUpdated >
TimeoutWebsocket`), on an exchange supporting REST, the same sweep
demotes the stream (`IsUsingWebsocket := false`, `IsUsingREST := true`)
and proceeds to a REST fetch with the in-flight flag held. -/
theorem C5_websocket_demotion (cfg : SyncManagerConfig) (sb : syncBase)
    (created now : Nat)
    (hproc : sb.IsProcessing = false) (hws : sb.IsUsingWebsocket = true)
    (hgrace : ((now - created : Nat) : Int) ≥ cfg.TimeoutWebsocket)
    (hstale : ((now - sb.LastUpdated : Nat) : Int) > cfg.TimeoutWebsocket) :
    orderbookSweep cfg sb created now true
      = (.restFetch, (demoteToRest sb).setProcessing true) ∧
    tickerSweep cfg sb created now true
      = (.restFetch, (demoteToRest sb).setProcessing true) ∧
    (demoteToRest sb).IsUsingWebsocket = false ∧
    (demoteToRest sb).IsUsingREST = true := by
  have hdue : streamDue cfg sb now := Or.inr (Or.inr ⟨hstale, hws⟩)
  refine ⟨?_, ?_, rfl, rfl⟩
  · unfold orderbookSweep
    rw [if_neg (by rw [hproc]; simp), if_pos hdue, if_pos hws,
        if_neg (not_lt.mpr hgrace)]
    simp
  · unfold tickerSweep
    rw [if_neg (by rw [hproc]; simp), if_pos hdue, if_pos hws,
        if_neg (not_lt.mpr hgrace)]
    simp [demoteToRest]

/-- A websocket stream that produced one frame at time 1 and nothing
since. -/
def wsStaleBase : syncBase := { IsUsingWebsocket := true, LastUpdated := 1 }

/-- Witness for C5: with `TimeoutWebsocket = 50`, a unit created at time 0
examined at time 200 is demoted and fetched in both branches. -/
theorem C5_websocket_demotion_witness :
    orderbookSweep cfgAll wsStaleBase 0 200 true
      = (.restFetch, (demoteToRest wsStaleBase).setProcessing true) ∧
    tickerSweep cfgAll wsStaleBase 0 200 true
      = (.restFetch, (demoteToRest wsStaleBase).setProcessing true) ∧
    (demoteToRest wsStaleBase).IsUsingWebsocket = false ∧
    (demoteToRest wsStaleBase).IsUsingREST = true :=
  C5_websocket_demotion cfgAll wsStaleBase 0 200 rfl rfl (by decide) (by decide)

/-! ## C7 -/

/-- C7 (code bug): at an exchange whose `GetWebsocket` returns an error,
the worker's transport-selection code logs the error, sets
`usingREST = true` — and then still evaluates `ws.IsConnected()` on the
value returned alongside the error, a nil-pointer dereference that
panics the worker instead of absorbing the error; the embedding reaches
the dereference marker `none`. -/
theorem C7_worker_nil_websocket_dereference :
    workerTransportSelect exchangeWsErr = none := by decide

/-! ## C8 -/

/-- The defaulting steps do not touch the display currency or the pair
format. -/
theorem normalizeDefaults_display (c : SyncManagerConfig) :
    (normalizeDefaults c).FiatDisplayCurrency = c.FiatDisplayCurrency ∧
    (normalizeDefaults c).PairFormatDisplay = c.PairFormatDisplay := by
  unfold normalizeDefaults defaultTimeoutWebsocket defaultTimeoutREST defaultNumWorkers
  split <;> split <;> split <;> exact ⟨rfl, rfl⟩

/-- The tail checks of `setupSyncManager` never produce
`noSyncItemsEnabled`. -/
theorem setupValidateDisplay_ne (c : SyncManagerConfig) :
    setupValidateDisplay c ≠ .error .noSyncItemsEnabled := by
  unfold setupValidateDisplay
  split
  · simp
  · split
    · simp
    · split <;> simp

/-- C8: constructing the sync manager with all three `Synchronize*` flags
false is rejected with `noSyncItemsEnabled` (for any non-nil config); with
at least one flag true that error is never returned, whatever else is
wrong; and when the remaining checks pass as well, setup succeeds. -/
theorem C8_no_sync_items_enabled :
    (∀ (c : SyncManagerConfig) (em rc : Bool),
      c.SynchronizeTicker = false → c.SynchronizeOrderbook = false →
      c.SynchronizeTrades = false →
      setupSyncManager (some c) em rc = .error .noSyncItemsEnabled)
  ∧ (∀ (c : SyncManagerConfig) (em rc : Bool),
      (c.SynchronizeTicker = true ∨ c.SynchronizeOrderbook = true ∨
        c.SynchronizeTrades = true) →
      setupSyncManager (some c) em rc ≠ .error .noSyncItemsEnabled)
  ∧ (∀ c : SyncManagerConfig,
      (c.SynchronizeTicker = true ∨ c.SynchronizeOrderbook = true ∨
        c.SynchronizeTrades = true) →
      c.FiatDisplayCurrency.IsEmpty = false →
      c.FiatDisplayCurrency.IsFiatCurrency = true →
      c.PairFormatDisplay ≠ none →
      setupSyncManager (some c) false false = .ok (normalizeDefaults c)) := by
  have hcondF : ∀ c : SyncManagerConfig,
      (c.SynchronizeTicker = true ∨ c.SynchronizeOrderbook = true ∨
        c.SynchronizeTrades = true) →
      ¬((!c.SynchronizeOrderbook && !c.SynchronizeTicker && !c.SynchronizeTrades) = true) := by
    intro c h
    rcases h with h | h | h <;> simp [h]
  refine ⟨?_, ?_, ?_⟩
  · intro c em rc h1 h2 h3
    simp only [setupSyncManager]
    rw [if_pos (by rw [h1, h2, h3]; rfl)]
  · intro c em rc hflags
    simp only [setupSyncManager]
    rw [if_neg (hcondF c hflags)]
    split
    · simp
    · split
      · simp
      · exact setupValidateDisplay_ne c
  · intro c hflags hne hfiat hpf
    obtain ⟨hd1, hd2⟩ := normalizeDefaults_display c
    simp only [setupSyncManager]
    rw [if_neg (hcondF c hflags), if_neg (by simp), if_neg (by simp)]
    unfold setupValidateDisplay
    rw [if_neg (by rw [hd1, hne]; simp), if_neg (by rw [hd1, hfiat]; simp),
        if_neg (by rw [hd2]; exact hpf)]

/-- `cfgAll` with every stream flag turned off. -/
def cfgNoStreams : SyncManagerConfig :=
  { cfgAll with
      SynchronizeTicker := false
      SynchronizeOrderbook := false
      SynchronizeTrades := false }

/-- Witness for C8: `cfgAll` (all flags on, USD fiat display, a pair
format) sets up successfully, while the same config with every stream
flag off is rejected with `noSyncItemsEnabled`. -/
theorem C8_no_sync_items_enabled_witness :
    setupSyncManager (some cfgAll) false false = .ok (normalizeDefaults cfgAll) ∧
    setupSyncManager (some cfgNoStreams) false false
      = .error .noSyncItemsEnabled :=
  ⟨C8_no_sync_items_enabled.2.2 cfgAll (Or.inl rfl) rfl rfl (by decide),
   C8_no_sync_items_enabled.1 cfgNoStreams false false rfl rfl rfl⟩

/-! ## C9 -/

/-- `add` leaves the configuration untouched. -/
theorem add_config (m : syncManager) (c : currencyPairSyncAgent) (now : Nat) :
    (m.add c now).config = m.config := rfl

/-- Folding a config-preserving step preserves the configuration. -/
theorem foldl_config_preserved {α : Type} (f : syncManager → α → syncManager)
    (hf : ∀ m x, (f m x).config = m.config) :
    ∀ (l : List α) (m : syncManager), (l.foldl f m).config = m.config := by
  intro l
  induction l with
  | nil => intro m; rfl
  | cons x xs ih => intro m; rw [List.foldl_cons, ih, hf]

/-- The per-pair start step preserves the configuration. -/
theorem startAddPair_config (exName : String) (aItem : AssetItem)
    (sBase : syncBase) (now : Nat) (m : syncManager) (p : CurrencyPair) :
    (startAddPair exName aItem sBase now m p).config = m.config := by
  unfold startAddPair
  split
  · rfl
  · exact add_config m _ now

/-- The per-asset start step preserves the configuration. -/
theorem startProcessAsset_config (exName : String) (rw : Bool × Bool)
    (now : Nat) (m : syncManager) (a : AssetModel) :
    (startProcessAsset exName rw now m a).config = m.config := by
  unfold startProcessAsset
  split
  · rfl
  · split
    · rfl
    · exact foldl_config_preserved _ (fun m' p => startAddPair_config _ _ _ _ m' p) _ m

/-- The per-exchange start step preserves the configuration. -/
theorem startProcessExchange_config (wrme : Bool) (m : syncManager)
    (e : ExchangeModel) (now : Nat) :
    (startProcessExchange wrme m e now).config = m.config := by
  unfold startProcessExchange
  split
  · rfl
  · exact foldl_config_preserved _ (fun m' a => startProcessAsset_config _ _ _ m' a) _ m

/-- The whole registry enumeration preserves the configuration. -/
theorem startRegistry_config (m : syncManager) (wrme : Bool)
    (exs : List ExchangeModel) (now : Nat) :
    (startRegistry m wrme exs now).config = m.config :=
  foldl_config_preserved _ (fun m' e => startProcessExchange_config wrme m' e now) exs m

/-- Arming the barrier preserves the configuration. -/
theorem armInitSync_config (m : syncManager) :
    (armInitSync m).config = m.config := by
  unfold armInitSync
  split <;> rfl

/-- C9: when `SynchronizeContinuously` is false and the initial-sync
latch has already closed by the time `Start` reaches the worker-spawn
check, `Start` returns nil having spawned zero workers. -/
theorem C9_no_workers_after_latch (m : syncManager) (wrme : Bool)
    (exs : List ExchangeModel) (now : Nat)
    (h0 : m.started = 0) (hc : m.config.SynchronizeContinuously = false) :
    (m.Start wrme (some exs) now true).2.1 = 0 ∧
    (m.Start wrme (some exs) now true).2.2 = none := by
  have hm3 : (armInitSync (startRegistry
      { m with started := 1, initSyncWGCount := m.initSyncWGCount + 1 }
      wrme exs now)).config.SynchronizeContinuously = false := by
    rw [armInitSync_config, startRegistry_config]
    exact hc
  unfold syncManager.Start
  rw [if_neg (by rw [h0]; simp)]
  simp only [hm3]
  exact ⟨rfl, rfl⟩

/-- Witness for C9: a stopped manager with a non-continuous config and an
empty exchange list spawns no workers and returns nil when the latch is
observed closed at the spawn check. -/
theorem C9_no_workers_after_latch_witness :
    (({ config := cfgAll } : syncManager).Start false (some []) 5 true).2.1 = 0 ∧
    (({ config := cfgAll } : syncManager).Start false (some []) 5 true).2.2 = none :=
  C9_no_workers_after_latch { config := cfgAll } false [] 5 rfl rfl

/-! ## C6 -/

/-- The race schedule: both workers read the (zero) batch timestamp
before either records a batch; both staleness tests pass on the stale
read. -/
def batchRaceSchedule : List BatchEvent :=
  [.readLast 0 100, .readLast 1 100, .lockedBatch 0 100, .lockedBatch 1 101]

/-- C6 counterexample: with `TimeoutREST = 50`, a clock-consistent
interleaving of two workers produces two `UpdateTickers` calls for the
same exchange at times 100 and 101 — one time unit apart, far below the
claimed minimum separation. The source's staleness test runs after the
registry lock protecting the read is released and the call section does
not re-check, so both workers act on the same stale read. -/
theorem C6_counterexample :
    timesMonotone batchRaceSchedule = true ∧
    (batchRun 50 batchRaceSchedule).calls = [100, 101] ∧
    ¬(100 + 50 ≤ 101) := by decide

/-- One read-then-call round behaves like an atomic check-and-call on the
`batchLast`/`calls` components. -/
theorem seqBatchRound_calls (timeout : Nat) (s : BatchSt) (r c : Nat) :
    (seqBatchRound timeout s (r, c)).calls =
      (if batchDue s.batchLast c timeout = true then s.calls ++ [c] else s.calls) ∧
    (seqBatchRound timeout s (r, c)).batchLast =
      (if batchDue s.batchLast c timeout = true then c else s.batchLast) := by
  have hlook : pendingLookup
      ((0, s.batchLast) :: s.pending.filter (fun q => !(q.1 == 0))) 0
      = some s.batchLast := rfl
  unfold seqBatchRound batchStep
  dsimp only
  rw [hlook]
  cases hdue : batchDue s.batchLast c timeout <;> simp [hdue]

/-- The invariant carried through a sequential batching run: call times
form a chain separated by more than the timeout, and `batchLast` is the
last call time (or the zero time with no calls yet). -/
def BatchInv (timeout : Nat) (s : BatchSt) : Prop :=
  List.Chain' (fun x y => x + timeout < y) s.calls ∧
  ((s.batchLast = 0 ∧ s.calls = []) ∨
   (1 ≤ s.batchLast ∧ s.calls.getLast? = some s.batchLast))

/-- One sequential round preserves the pacing invariant, provided the
call's clock value is a real (non-zero) time. -/
theorem BatchInv_round (timeout : Nat) (s : BatchSt) (r c : Nat)
    (hc : 1 ≤ c) (hinv : BatchInv timeout s) :
    BatchInv timeout (seqBatchRound timeout s (r, c)) := by
  obtain ⟨hchain, hrest⟩ := hinv
  obtain ⟨hcalls, hlast⟩ := seqBatchRound_calls timeout s r c
  cases hdue : batchDue s.batchLast c timeout
  · rw [hdue] at hcalls hlast
    simp at hcalls hlast
    constructor
    · rw [hcalls]; exact hchain
    · rw [hcalls, hlast]; exact hrest
  · rw [hdue] at hcalls hlast
    simp at hcalls hlast
    rcases hrest with ⟨hb0, hnil⟩ | ⟨hb1, hlq⟩
    · constructor
      · rw [hcalls, hnil]
        simp
      · refine Or.inr ⟨?_, ?_⟩
        · rw [hlast]; exact hc
        · rw [hcalls, hlast, hnil]
          simp
    · have hgap : s.batchLast + timeout < c := by
        unfold batchDue at hdue
        have hz : (s.batchLast == 0) = false := by
          simp only [beq_eq_false_iff_ne]
          omega
        rw [hz] at hdue
        simp only [Bool.false_or, decide_eq_true_eq] at hdue
        omega
      constructor
      · rw [hcalls]
        refine List.Chain'.append hchain (List.chain'_singleton c) ?_
        intro x hx y hy
        rw [hlq] at hx
        simp at hx hy
        subst hx
        subst hy
        exact hgap
      · refine Or.inr ⟨?_, ?_⟩
        · rw [hlast]; exact hc
        · rw [hcalls, hlast]
          simp

/-- C6 (amended: holds for a sequential run — a single worker, or any
execution in which each staleness check and its batch call are not
interleaved with another worker's; under concurrent workers the check
races with the call, see the counterexample): consecutive `UpdateTickers`
call times for one exchange are separated by more than `TimeoutREST`. -/
theorem C6_batch_pacing_sequential (timeout : Nat) (rounds : List (Nat × Nat))
    (hpos : ∀ rc ∈ rounds, 1 ≤ rc.2) :
    List.Chain' (fun x y => x + timeout < y) (seqBatchRun timeout rounds).calls := by
  have main : ∀ (rs : List (Nat × Nat)) (s : BatchSt), (∀ rc ∈ rs, 1 ≤ rc.2) →
      BatchInv timeout s → BatchInv timeout (rs.foldl (seqBatchRound timeout) s) := by
    intro rs
    induction rs with
    | nil => intro s _ hs; exact hs
    | cons rc rest ih =>
      intro s hall hs
      have h1 : 1 ≤ rc.2 := hall rc (List.mem_cons_self rc rest)
      have h2 : ∀ x ∈ rest, 1 ≤ x.2 := fun x hx => hall x (List.mem_cons_of_mem rc hx)
      rw [List.foldl_cons]
      obtain ⟨r, c⟩ := rc
      exact ih (seqBatchRound timeout s (r, c)) h2 (BatchInv_round timeout s r c h1 hs)
  exact (main rounds {} hpos ⟨List.chain'_nil, Or.inl ⟨rfl, rfl⟩⟩).1

/-- Three sequential batching rounds at comfortably spaced times. -/
def pacedRounds : List (Nat × Nat) := [(1, 2), (60, 61), (200, 300)]

/-- Witness for C6 (amended): the concrete three-round sequential run is
paced by more than the 50-unit timeout. -/
theorem C6_batch_pacing_sequential_witness :
    (∀ rc ∈ pacedRounds, 1 ≤ rc.2) ∧
    List.Chain' (fun x y => x + 50 < y) (seqBatchRun 50 pacedRounds).calls :=
  ⟨by decide, C6_batch_pacing_sequential 50 pacedRounds (by decide)⟩

end SyncV
